import Mathlib

/-!
Shallow embedding of the loan-lifecycle core of the Library_project Django
backend (library/models.py, library/views.py, library/tasks.py), together
with proofs of the spec's testable properties.

Modelling conventions:
- Database tables become Lean lists of records; a record's primary key is
  an explicit `id : Nat` field.
- Timestamps are `Nat` seconds; `timedelta(days=15)` is `15 * 86400`.
- `available_copies` is an `Int` so that the non-negativity invariant is a
  real statement (Python integer arithmetic is unbounded and signed; only
  the view-level guard keeps the count non-negative).
- Each HTTP handler becomes a function from state (plus request data) to
  `state × outcome`; error paths return the input state unchanged, mirroring
  the fact that those paths in the source perform no `save()`/`create()`.
- Django's `QuerySet.get` semantics: zero matches raises `DoesNotExist`
  (mapped to the 404 branch), two or more matches raises
  `MultipleObjectsReturned`, which the views catch with their generic
  `except Exception` handler (mapped to `internalError`, HTTP 500).
-/

namespace LibraryProject

/-- `Book` model (library/models.py): title, author, isbn, pages,
available_copies; `id` is the implicit Django primary key. -/
structure Book where
  id : Nat
  title : String
  author : String
  isbn : String
  pages : Nat
  available_copies : Int
  deriving Repr, DecidableEq

/-- `BorrowedBook` model (library/models.py): user and book foreign keys,
`borrowed_at` (auto_now_add), `due_date` (default get_due_date),
`returned` (default False). `id` is the Django primary key. -/
structure Loan where
  id : Nat
  userId : Nat
  bookId : Nat
  borrowed_at : Nat
  due_date : Nat
  returned : Bool
  deriving Repr, DecidableEq

/-- The database state the loan lifecycle touches: the Book table, the
BorrowedBook table, and the next fresh primary key for loans. -/
structure LibState where
  books : List Book
  loans : List Loan
  nextLoanId : Nat
  deriving Repr, DecidableEq

/-- Seconds in a day, to express `timedelta(days=15)` over `Nat` seconds. -/
def secondsPerDay : Nat := 86400

/-- models.get_due_date: `now() + timedelta(days=15)`. -/
def get_due_date (now : Nat) : Nat := now + 15 * secondsPerDay

/-- `Book.objects.get(id=book_id)` lookup (first row with that pk). -/
def findBook (s : LibState) (bookId : Nat) : Option Book :=
  s.books.find? (fun b => b.id == bookId)

/-- `book.save()`: write the (possibly modified) row back by primary key. -/
def updateBook (books : List Book) (b : Book) : List Book :=
  books.map (fun x => if x.id == b.id then b else x)

/-- The error kinds the views surface:
`notFound` ↦ HTTP 404 responses ('Book not found' / 'Borrowed book not found'),
`conflict` ↦ HTTP 400 'No copies available',
`permissionDenied` ↦ HTTP 403 'Permission Denied',
`internalError` ↦ HTTP 500 from the generic `except Exception` handlers. -/
inductive ApiError where
  | notFound
  | conflict
  | permissionDenied
  | internalError
  deriving Repr, DecidableEq

/-- Outcome of BorrowBookView.post: HTTP 201 with the created loan, or an error. -/
inductive BorrowOutcome where
  | created (loan : Loan)
  | err (e : ApiError)
  deriving Repr, DecidableEq

/-- BorrowBookView.post (library/views.py): look up the book by id
(404 'Book not found' if absent), refuse with 400 'No copies available'
when `available_copies <= 0`, otherwise create a BorrowedBook with the
model defaults (`borrowed_at = now`, `due_date = get_due_date now`,
`returned = false`), decrement `available_copies` and save the book. -/
def borrowBook (s : LibState) (userId bookId now : Nat) : LibState × BorrowOutcome :=
  match findBook s bookId with
  | none => (s, .err .notFound)
  | some book =>
    if book.available_copies ≤ 0 then
      (s, .err .conflict)
    else
      let loan : Loan :=
        { id := s.nextLoanId, userId := userId, bookId := bookId,
          borrowed_at := now, due_date := get_due_date now, returned := false }
      let book2 := { book with available_copies := book.available_copies - 1 }
      ({ books := updateBook s.books book2,
         loans := s.loans ++ [loan],
         nextLoanId := s.nextLoanId + 1 }, .created loan)

/-- Outcome of ReturnBookView.post: HTTP 200, or an error. -/
inductive ReturnOutcome where
  | ok
  | err (e : ApiError)
  deriving Repr, DecidableEq

/-- The rows matched by
`BorrowedBook.objects.get(book_id=book_id, user=request.user, returned=False)`. -/
def activeLoansFor (s : LibState) (userId bookId : Nat) : List Loan :=
  s.loans.filter (fun l => l.bookId == bookId && l.userId == userId && l.returned == false)

/-- `borrowed_book.returned = True; borrowed_book.save()`: overwrite the row
with `l`'s primary key by `l` with the flag set. -/
def markReturned (loans : List Loan) (l : Loan) : List Loan :=
  loans.map (fun x => if x.id == l.id then { l with returned := true } else x)

/-- ReturnBookView.post (library/views.py): `get` the unique active loan for
(user, book) — zero rows is `DoesNotExist` ↦ 404, several rows is
`MultipleObjectsReturned`, swallowed by the generic handler ↦ 500 —
mark it returned and save it, then increment the book's
`available_copies` and save the book. -/
def returnBook (s : LibState) (userId bookId : Nat) : LibState × ReturnOutcome :=
  match activeLoansFor s userId bookId with
  | [] => (s, .err .notFound)
  | [l] =>
    let s1 : LibState := { s with loans := markReturned s.loans l }
    match findBook s1 bookId with
    | none => (s1, .err .internalError)
    | some book =>
      let book2 := { book with available_copies := book.available_copies + 1 }
      ({ s1 with books := updateBook s1.books book2 }, .ok)
  | _ :: _ :: _ => (s, .err .internalError)

/-- tasks.check_due_books: `BorrowedBook.objects.filter(returned=False,
due_date__lt=datetime.now())`; the task only logs each hit and returns the
count, writing nothing, so the state passes through unchanged. -/
def check_due_books (s : LibState) (now : Nat) : LibState × List Loan :=
  (s, s.loans.filter (fun l => l.returned == false && decide (l.due_date < now)))

/-- Outcome of the catalog-mutation handlers. -/
inductive CatalogOutcome where
  | ok
  | err (e : ApiError)
  deriving Repr, DecidableEq

/-- `self.request.user.role in ['admin', 'librarian']`. -/
def isStaff (role : String) : Bool :=
  role == "admin" || role == "librarian"

/-- BookCreateView.perform_create: refuse with 403 'Permission Denied' when
the role is not admin/librarian, otherwise `serializer.save()` inserts the
new book row. -/
def perform_create (role : String) (s : LibState) (b : Book) : LibState × CatalogOutcome :=
  if !(isStaff role) then
    (s, .err .permissionDenied)
  else
    ({ s with books := s.books ++ [b] }, .ok)

/-- BookUpdateDeleteView.perform_update: refuse with 403 'Permission Denied'
when the role is not admin/librarian, otherwise `serializer.save()`
overwrites the row with `b`'s primary key. -/
def perform_update (role : String) (s : LibState) (b : Book) : LibState × CatalogOutcome :=
  if !(isStaff role) then
    (s, .err .permissionDenied)
  else
    ({ s with books := updateBook s.books b }, .ok)

/-- BookUpdateDeleteView.perform_destroy: refuse with 403 'Permission Denied'
when the role is not admin/librarian, otherwise `instance.delete()` removes
the book row; the BorrowedBook foreign key has `on_delete=CASCADE`, so the
book's loans are deleted with it. -/
def perform_destroy (role : String) (s : LibState) (bookId : Nat) : LibState × CatalogOutcome :=
  if !(isStaff role) then
    (s, .err .permissionDenied)
  else
    ({ s with books := s.books.filter (fun x => !(x.id == bookId)),
              loans := s.loans.filter (fun l => !(l.bookId == bookId)) }, .ok)

/-- The loan-service operations of the spec's §4.1. -/
inductive Op where
  | borrow (userId bookId now : Nat)
  | ret (userId bookId : Nat)
  | scan (now : Nat)
  deriving Repr, DecidableEq

/-- The state after one operation (errors leave the state unchanged). -/
def applyOp (s : LibState) : Op → LibState
  | .borrow u b n => (borrowBook s u b n).1
  | .ret u b => (returnBook s u b).1
  | .scan n => (check_due_books s n).1

/-- The state after a sequence of operations. -/
def applyOps (s : LibState) : List Op → LibState
  | [] => s
  | op :: ops => applyOps (applyOp s op) ops

/-- `s` is reachable from `s0` by some sequence of loan-service operations. -/
def Reachable (s0 s : LibState) : Prop :=
  ∃ ops : List Op, s = applyOps s0 ops

/-- Database well-formedness: loan primary keys are distinct and the fresh
key really is fresh. Django's autoincrement pk guarantees this. -/
def WF (s : LibState) : Prop :=
  (s.loans.map Loan.id).Nodup ∧ ∀ l ∈ s.loans, l.id < s.nextLoanId

/-- Number of active (`returned = false`) loans on a given book. -/
def countActive (loans : List Loan) (bookId : Nat) : Nat :=
  (loans.filter (fun l => l.bookId == bookId && l.returned == false)).length

/-- Spec §8 inventory-conservation invariant, with the book's total copies
supplied as a ghost function of its id (the source stores only
`available_copies`; the total is the conserved quantity). -/
def InvConservation (total : Nat → Int) (s : LibState) : Prop :=
  ∀ b ∈ s.books, b.available_copies = total b.id - (countActive s.loans b.id : Int)

/-! Concrete fixtures used by the witness theorems. -/

/-- A book with one available copy. -/
def bookA : Book :=
  { id := 1, title := "Dune", author := "Herbert", isbn := "9780441013593",
    pages := 412, available_copies := 1 }

/-- A book with no available copies. -/
def bookB : Book :=
  { id := 2, title := "Emma", author := "Austen", isbn := "9780141439587",
    pages := 474, available_copies := 0 }

/-- Catalog with one copy of `bookA` and no loans. -/
def testState : LibState := { books := [bookA], loans := [], nextLoanId := 0 }

/-- Catalog with `bookB` out of stock and no loans. -/
def testState0 : LibState := { books := [bookB], loans := [], nextLoanId := 0 }

/-- The loan `borrowBook testState 7 1 1000` creates. -/
def testLoan : Loan :=
  { id := 0, userId := 7, bookId := 1, borrowed_at := 1000,
    due_date := 1000 + 15 * 86400, returned := false }

/-- `bookA` with two available copies. -/
def bookA2 : Book := { bookA with available_copies := 2 }

/-- An active loan of user 7 on book 1. -/
def dupLoan : Loan :=
  { id := 0, userId := 7, bookId := 1, borrowed_at := 0,
    due_date := 15 * 86400, returned := false }

/-- State where user 7 already holds an active loan on book 1 and another
copy is still on the shelf. -/
def dupState : LibState := { books := [bookA2], loans := [dupLoan], nextLoanId := 1 }

/-- A loan of user 7 on book 1 that has already been returned. -/
def retLoan : Loan :=
  { id := 0, userId := 7, bookId := 1, borrowed_at := 0,
    due_date := 15 * 86400, returned := true }

/-- State holding only the already-returned `retLoan`. -/
def testStateR : LibState := { books := [bookA], loans := [retLoan], nextLoanId := 1 }

/-- The `available_copies` column of the row with id `bid`, when present. -/
def copiesOf (s : LibState) (bid : Nat) : Option Int :=
  (findBook s bid).map Book.available_copies

/-- C2: for every loan created by a successful Borrow, at creation time its
due date equals its borrow timestamp plus exactly 15 days, the borrow
timestamp being the operation's `now`. -/
theorem borrow_due_date_policy (s s2 : LibState) (u bid now : Nat) (loan : Loan)
    (h : borrowBook s u bid now = (s2, .created loan)) :
    loan.due_date = loan.borrowed_at + 15 * secondsPerDay ∧ loan.borrowed_at = now := by
  unfold borrowBook at h
  cases hfind : findBook s bid with
  | none => rw [hfind] at h; simp at h
  | some book =>
    rw [hfind] at h
    by_cases hc : book.available_copies ≤ 0
    · simp [hc] at h
    · simp only [hc, if_false, Prod.mk.injEq, BorrowOutcome.created.injEq] at h
      obtain ⟨-, hl⟩ := h
      subst hl
      exact ⟨rfl, rfl⟩

/-- Witness for C2 at a concrete borrow. -/
theorem borrow_due_date_policy_witness :
    testLoan.due_date = testLoan.borrowed_at + 15 * secondsPerDay ∧
      testLoan.borrowed_at = 1000 :=
  borrow_due_date_policy testState
    { books := [{ bookA with available_copies := 0 }], loans := [testLoan], nextLoanId := 1 }
    7 1 1000 testLoan (by decide)

/-- C3: Borrow answers 404 Not Found when no book with the requested id
exists, and 400 'No copies available' (the spec's Conflict) when
`available_copies <= 0`; in both error cases the returned state is the
input state: no loan row is created and no book row is written. -/
theorem borrow_error_cases (s : LibState) (u bid now : Nat) :
    (findBook s bid = none → borrowBook s u bid now = (s, .err .notFound)) ∧
    (∀ bk, findBook s bid = some bk → bk.available_copies ≤ 0 →
      borrowBook s u bid now = (s, .err .conflict)) := by
  constructor
  · intro h
    unfold borrowBook
    rw [h]
  · intro bk h hc
    unfold borrowBook
    rw [h]
    simp [hc]

/-- Witness for C3: missing book id 99, and out-of-stock `bookB`. -/
theorem borrow_error_cases_witness :
    borrowBook testState 7 99 0 = (testState, .err .notFound) ∧
    borrowBook testState0 7 2 0 = (testState0, .err .conflict) :=
  ⟨(borrow_error_cases testState 7 99 0).1 (by decide),
   (borrow_error_cases testState0 7 2 0).2 bookB (by decide) (by decide)⟩

/-- C4: the overdue scan leaves the state unchanged, returns exactly the
loans with `returned = false` and `due_date < now`, returns the empty list
when no loan qualifies, and a repeated invocation on the returned state
yields the same result. -/
theorem scan_overdue_correct (s : LibState) (now : Nat) :
    (check_due_books s now).1 = s ∧
    (∀ l, l ∈ (check_due_books s now).2 ↔
      l ∈ s.loans ∧ l.returned = false ∧ l.due_date < now) ∧
    ((∀ l ∈ s.loans, ¬(l.returned = false ∧ l.due_date < now)) →
      (check_due_books s now).2 = []) ∧
    check_due_books ((check_due_books s now).1) now = check_due_books s now := by
  refine ⟨rfl, ?_, ?_, rfl⟩
  · intro l
    unfold check_due_books
    simp [List.mem_filter, and_assoc]
  · intro h
    unfold check_due_books
    simp only [List.filter_eq_nil_iff]
    intro l hl
    specialize h l hl
    simp only [Bool.and_eq_true, beq_iff_eq, decide_eq_true_eq]
    tauto

/-- Witness for C4 on a state with no qualifying loan. -/
theorem scan_overdue_correct_witness : (check_due_books testState 1000).2 = [] :=
  (scan_overdue_correct testState 1000).2.2.1 (by decide)

/-- C5: Return answers 404 'Borrowed book not found' whenever no active
(`returned = false`) loan exists for the (user, book) pair, and the
returned state is the input state: no loan row and no book row is written. -/
theorem return_not_found (s : LibState) (u bid : Nat)
    (h : ∀ l ∈ s.loans, ¬(l.userId = u ∧ l.bookId = bid ∧ l.returned = false)) :
    returnBook s u bid = (s, .err .notFound) := by
  have hempty : activeLoansFor s u bid = [] := by
    unfold activeLoansFor
    rw [List.filter_eq_nil_iff]
    intro l hl
    specialize h l hl
    simp only [Bool.and_eq_true, beq_iff_eq, not_and] at h ⊢
    tauto
  unfold returnBook
  rw [hempty]

/-- Witness for C5 on a state with no loans at all. -/
theorem return_not_found_witness :
    returnBook testState 7 1 = (testState, .err .notFound) :=
  return_not_found testState 7 1 (by decide)

/-! Helper lemmas about the embedded table operations. -/

/-- A successful `Book.objects.get(id=bid)` returns a row of the table whose
primary key is `bid`. -/
theorem findBook_spec {s : LibState} {bid : Nat} {bk : Book}
    (h : findBook s bid = some bk) : bk ∈ s.books ∧ bk.id = bid := by
  unfold findBook at h
  refine ⟨List.mem_of_find?_eq_some h, ?_⟩
  have hp := List.find?_some h
  simpa [beq_iff_eq] using hp

/-- With distinct primary keys, two rows of the loan table with the same key
are the same row. -/
theorem nodup_id_eq : ∀ {loans : List Loan}, (loans.map Loan.id).Nodup →
    ∀ {a b : Loan}, a ∈ loans → b ∈ loans → a.id = b.id → a = b := by
  intro loans
  induction loans with
  | nil => intro _ a b ha; exact absurd ha (List.not_mem_nil a)
  | cons x xs ih =>
    intro hnd a b ha hb hid
    simp only [List.map_cons, List.nodup_cons, List.mem_map] at hnd
    obtain ⟨hx, hxs⟩ := hnd
    rcases List.mem_cons.mp ha with ha1 | ha2 <;>
      rcases List.mem_cons.mp hb with hb1 | hb2
    · rw [ha1, hb1]
    · exact absurd ⟨b, hb2, (ha1 ▸ hid).symm⟩ hx
    · exact absurd ⟨a, ha2, hb1 ▸ hid⟩ hx
    · exact ih hxs ha2 hb2 hid

/-- Saving a loan row touches no row with a different primary key. -/
theorem markReturned_of_not_mem {loans : List Loan} {l : Loan}
    (h : ∀ x ∈ loans, x.id ≠ l.id) : markReturned loans l = loans := by
  unfold markReturned
  induction loans with
  | nil => rfl
  | cons x xs ih =>
    simp only [List.map_cons]
    rw [if_neg (by simpa using h x (List.mem_cons_self x xs)), ih]
    intro y hy
    exact h y (List.mem_cons_of_mem x hy)

/-- With distinct primary keys, saving the fetched loan row rewrites exactly
its own position in the table. -/
theorem markReturned_decomp {l1 l2 : List Loan} {l : Loan}
    (hnd : ((l1 ++ l :: l2).map Loan.id).Nodup) :
    markReturned (l1 ++ l :: l2) l = l1 ++ { l with returned := true } :: l2 := by
  simp only [List.map_append, List.map_cons, List.nodup_append, List.nodup_cons,
    List.mem_map, List.disjoint_left] at hnd
  obtain ⟨-, ⟨hl2, -⟩, hdisj⟩ := hnd
  have h1 : ∀ x ∈ l1, x.id ≠ l.id := by
    intro x hx heq
    exact hdisj ⟨x, hx, rfl⟩ (by rw [heq]; exact List.mem_cons_self _ _)
  have h2 : ∀ x ∈ l2, x.id ≠ l.id := by
    intro x hx heq
    exact hl2 ⟨x, hx, heq⟩
  have e1 : markReturned l1 l = l1 := markReturned_of_not_mem h1
  have e2 : markReturned l2 l = l2 := markReturned_of_not_mem h2
  unfold markReturned at e1 e2 ⊢
  rw [List.map_append, List.map_cons, if_pos (by simp), e1, e2]

/-- `countActive` distributes over table concatenation. -/
theorem countActive_append (a b : List Loan) (bid : Nat) :
    countActive (a ++ b) bid = countActive a bid + countActive b bid := by
  unfold countActive
  rw [List.filter_append, List.length_append]

/-- Inserting one loan row raises the active count of its book by one when
the row is active, and changes no other count. -/
theorem countActive_append_single (s : List Loan) (l : Loan) (bid : Nat) :
    countActive (s ++ [l]) bid =
      countActive s bid + (if l.bookId = bid ∧ l.returned = false then 1 else 0) := by
  rw [countActive_append]
  congr 1
  unfold countActive
  by_cases h : l.bookId = bid ∧ l.returned = false
  · rw [if_pos h]
    simp [List.filter_cons, h.1, h.2]
  · rw [if_neg h]
    have hp : ¬((l.bookId == bid && l.returned == false) = true) := by
      simp only [Bool.and_eq_true, beq_iff_eq]
      tauto
    rw [List.filter_cons, if_neg hp]
    rfl

/-- Marking an active loan returned lowers the active count of its book by
one and changes no other book's count. -/
theorem countActive_markReturned {s : List Loan} {l : Loan}
    (hnd : (s.map Loan.id).Nodup) (hl : l ∈ s) (hact : l.returned = false)
    (bid : Nat) :
    countActive s bid =
      countActive (markReturned s l) bid + (if l.bookId = bid then 1 else 0) := by
  obtain ⟨l1, l2, rfl⟩ := List.append_of_mem hl
  rw [markReturned_decomp hnd]
  rw [countActive_append, countActive_append]
  have hflip : countActive ({ l with returned := true } :: l2) bid = countActive l2 bid := by
    unfold countActive
    simp [List.filter_cons]
  have hcons : countActive (l :: l2) bid =
      countActive l2 bid + (if l.bookId = bid then 1 else 0) := by
    unfold countActive
    by_cases h : l.bookId = bid
    · simp [List.filter_cons, h, hact, Nat.add_comm]
    · simp [List.filter_cons, h]
  rw [hflip, hcons]
  omega

/-- Rows of the table after a `book.save()` are the saved row or untouched
rows with a different primary key. -/
theorem mem_updateBook {books : List Book} {b bk2 : Book}
    (h : b ∈ updateBook books bk2) : b = bk2 ∨ (b ∈ books ∧ b.id ≠ bk2.id) := by
  unfold updateBook at h
  obtain ⟨x, hx, hxe⟩ := List.mem_map.mp h
  by_cases hc : x.id = bk2.id
  · left
    rw [← hxe, if_pos (by simpa using hc)]
  · right
    rw [← hxe, if_neg (by simpa using hc)]
    exact ⟨hx, hc⟩

/-- After saving a row carrying the fetched row's primary key, fetching that
key returns the saved row. -/
theorem find_updateBook {books : List Book} {bid : Nat} {bk bk2 : Book}
    (h : books.find? (fun b => b.id == bid) = some bk) (hid : bk2.id = bk.id) :
    (updateBook books bk2).find? (fun b => b.id == bid) = some bk2 := by
  have hbid : bk.id = bid := by simpa [beq_iff_eq] using List.find?_some h
  induction books with
  | nil => simp at h
  | cons x xs ih =>
    unfold updateBook
    simp only [List.map_cons]
    by_cases hx : x.id = bid
    · rw [List.find?_cons_of_pos _ (by simpa using hx)] at h
      have hxbk : x = bk := Option.some.inj h
      rw [if_pos (by simp only [beq_iff_eq]; rw [hxbk, hid])]
      exact List.find?_cons_of_pos _ (by simp only [beq_iff_eq]; rw [hid, hbid])
    · rw [List.find?_cons_of_neg _ (by simpa using hx)] at h
      rw [if_neg (by simp only [beq_iff_eq, hid, hbid]; exact hx)]
      rw [List.find?_cons_of_neg _ (by simpa using hx)]
      exact ih h

/-- Computation rule for a borrow whose book lookup succeeded. -/
theorem borrowBook_found {s : LibState} {bid : Nat} {bk : Book} (u now : Nat)
    (hfind : findBook s bid = some bk) :
    borrowBook s u bid now =
      if bk.available_copies ≤ 0 then (s, BorrowOutcome.err ApiError.conflict)
      else
        ({ books := updateBook s.books
             { bk with available_copies := bk.available_copies - 1 },
           loans := s.loans ++
             [{ id := s.nextLoanId, userId := u, bookId := bid,
                borrowed_at := now, due_date := get_due_date now, returned := false }],
           nextLoanId := s.nextLoanId + 1 },
         BorrowOutcome.created
           { id := s.nextLoanId, userId := u, bookId := bid,
             borrowed_at := now, due_date := get_due_date now, returned := false }) := by
  unfold borrowBook
  rw [hfind]

/-- Computation rule for a successful borrow: the book row was found and
has copies available. -/
theorem borrowBook_success {s : LibState} {u bid now : Nat} {bk : Book}
    (hfind : findBook s bid = some bk) (hpos : ¬bk.available_copies ≤ 0) :
    borrowBook s u bid now =
      ({ books := updateBook s.books { bk with available_copies := bk.available_copies - 1 },
         loans := s.loans ++
           [{ id := s.nextLoanId, userId := u, bookId := bid,
              borrowed_at := now, due_date := get_due_date now, returned := false }],
         nextLoanId := s.nextLoanId + 1 },
       .created { id := s.nextLoanId, userId := u, bookId := bid,
                  borrowed_at := now, due_date := get_due_date now, returned := false }) := by
  rw [borrowBook_found u now hfind, if_neg hpos]

/-- Computation rule for a return whose lookup matches exactly one active
loan (`findBook` ignores the loan table, so the lookup after the loan save
coincides with the lookup in the pre-state). -/
theorem returnBook_single {s : LibState} {u bid : Nat} {l : Loan}
    (hact : activeLoansFor s u bid = [l]) :
    returnBook s u bid =
      match findBook s bid with
      | none => ({ s with loans := markReturned s.loans l },
                 ReturnOutcome.err ApiError.internalError)
      | some book =>
        ({ books := updateBook s.books
             { book with available_copies := book.available_copies + 1 },
           loans := markReturned s.loans l, nextLoanId := s.nextLoanId },
         ReturnOutcome.ok) := by
  unfold returnBook
  rw [hact]
  rfl

/-- Inserting the loan row a borrow creates raises exactly its own book's
active count by one. -/
theorem countActive_append_new (s : List Loan) (u bid now nid k : Nat) :
    countActive (s ++ [{ id := nid, userId := u, bookId := bid,
                         borrowed_at := now, due_date := get_due_date now,
                         returned := false }]) k =
      countActive s k + (if bid = k then 1 else 0) := by
  rw [countActive_append_single]
  by_cases h : bid = k
  · rw [if_pos ⟨h, rfl⟩, if_pos h]
  · rw [if_neg (fun hand => h hand.1), if_neg h]

/-- The row a single-match return fetched: it is an active loan of that
user on that book. -/
theorem activeLoansFor_single_spec {s : LibState} {u bid : Nat} {l : Loan}
    (hact : activeLoansFor s u bid = [l]) :
    l ∈ s.loans ∧ l.bookId = bid ∧ l.userId = u ∧ l.returned = false := by
  have hmem : l ∈ activeLoansFor s u bid := by
    rw [hact]; exact List.mem_cons_self _ _
  unfold activeLoansFor at hmem
  have := List.mem_filter.mp hmem
  simpa [Bool.and_eq_true, beq_iff_eq, and_assoc] using this

/-- C1: inventory conservation. With each book's total number of copies
given by the ghost function `total`, the invariant
`available_copies = total - (active loans on the book)` is preserved by
every successful Borrow (one active loan added, count decremented by one)
and every successful Return (one active loan cleared, count incremented by
one). -/
theorem inventory_conservation (total : Nat → Int) (s s2 : LibState)
    (hnd : (s.loans.map Loan.id).Nodup)
    (hinv : InvConservation total s)
    (hstep : (∃ u bid now loan, borrowBook s u bid now = (s2, .created loan)) ∨
             (∃ u bid, returnBook s u bid = (s2, .ok))) :
    InvConservation total s2 := by
  rcases hstep with ⟨u, bid, now, loan, hb⟩ | ⟨u, bid, hr⟩
  · cases hfind : findBook s bid with
    | none => unfold borrowBook at hb; rw [hfind] at hb; simp at hb
    | some bk =>
      by_cases hc : bk.available_copies ≤ 0
      · rw [borrowBook_found u now hfind, if_pos hc] at hb; simp at hb
      · rw [borrowBook_success hfind hc] at hb
        injection hb with hs2 hl
        subst hs2
        obtain ⟨hbmem, hbid⟩ := findBook_spec hfind
        intro b hb2
        rcases mem_updateBook hb2 with rfl | ⟨hbm, hbne⟩
        · show bk.available_copies - 1 =
            total bk.id - (countActive (s.loans ++ [_]) bk.id : Int)
          rw [countActive_append_new s.loans u bid now s.nextLoanId bk.id,
            if_pos hbid.symm]
          have hi := hinv bk hbmem
          push_cast at hi ⊢
          omega
        · have hbne2 : b.id ≠ bk.id := hbne
          show b.available_copies =
            total b.id - (countActive (s.loans ++ [_]) b.id : Int)
          rw [countActive_append_new s.loans u bid now s.nextLoanId b.id,
            if_neg (fun he => hbne2 ((hbid.trans he).symm)), Nat.add_zero]
          exact hinv b hbm
  · cases hact : activeLoansFor s u bid with
    | nil => unfold returnBook at hr; rw [hact] at hr; simp at hr
    | cons l rest =>
      cases rest with
      | cons l2 r2 => unfold returnBook at hr; rw [hact] at hr; simp at hr
      | nil =>
        rw [returnBook_single hact] at hr
        obtain ⟨hlm, hlb, hlu, hlr⟩ := activeLoansFor_single_spec hact
        cases hfind : findBook s bid with
        | none =>
          rw [hfind] at hr
          have hr2 : ({ s with loans := markReturned s.loans l },
              ReturnOutcome.err ApiError.internalError) = (s2, ReturnOutcome.ok) := hr
          simp at hr2
        | some book =>
          rw [hfind] at hr
          have hs2 : ({ books := updateBook s.books
                          { book with available_copies := book.available_copies + 1 },
                        loans := markReturned s.loans l,
                        nextLoanId := s.nextLoanId } : LibState) = s2 :=
            congrArg Prod.fst hr
          subst hs2
          obtain ⟨hbmem, hbid⟩ := findBook_spec hfind
          intro b hb2
          rcases mem_updateBook hb2 with rfl | ⟨hbm, hbne⟩
          · show book.available_copies + 1 =
              total book.id - (countActive (markReturned s.loans l) book.id : Int)
            have hcnt := countActive_markReturned hnd hlm hlr book.id
            rw [if_pos (hlb.trans hbid.symm)] at hcnt
            have hi := hinv book hbmem
            rw [hcnt] at hi
            push_cast at hi ⊢
            omega
          · have hbne2 : b.id ≠ book.id := hbne
            show b.available_copies =
              total b.id - (countActive (markReturned s.loans l) b.id : Int)
            have hcnt := countActive_markReturned hnd hlm hlr b.id
            rw [if_neg (fun he => hbne2 ((he.symm.trans hlb).trans hbid.symm))] at hcnt
            rw [Nat.add_zero] at hcnt
            rw [← hcnt]
            exact hinv b hbm

/-- Witness for C1: borrowing the single copy of `bookA` preserves the
invariant with one total copy. -/
theorem inventory_conservation_witness :
    InvConservation (fun _ => 1)
      { books := [{ bookA with available_copies := 0 }],
        loans := [testLoan], nextLoanId := 1 } :=
  inventory_conservation (fun _ => 1) testState
    { books := [{ bookA with available_copies := 0 }],
      loans := [testLoan], nextLoanId := 1 }
    (by decide)
    (by unfold InvConservation; decide)
    (Or.inl ⟨7, 1, 1000, testLoan, by decide⟩)

/-- C6 counterexample: in `dupState` user 7 already holds an active loan on
book 1 and a second copy is on the shelf. The Borrow succeeds, but the
immediately following Return matches two active loans, so the view's
generic exception handler answers 500 and writes nothing: the book's
`available_copies` stays at 1 instead of returning to its pre-Borrow
value 2. -/
theorem borrow_return_round_trip_counterexample :
    (borrowBook dupState 7 1 0).2 =
      BorrowOutcome.created
        { id := 1, userId := 7, bookId := 1, borrowed_at := 0,
          due_date := 15 * 86400, returned := false } ∧
    (returnBook (borrowBook dupState 7 1 0).1 7 1).2 =
      ReturnOutcome.err ApiError.internalError ∧
    copiesOf (returnBook (borrowBook dupState 7 1 0).1 7 1).1 1 ≠ copiesOf dupState 1 := by
  decide

/-- C6 amended: when the user holds no other active loan on the book, a
successful Borrow immediately followed by Return succeeds and restores the
book's `available_copies` to its pre-Borrow value. -/
theorem borrow_return_round_trip (s s1 : LibState) (u bid now : Nat) (loan : Loan)
    (hnoprev : activeLoansFor s u bid = [])
    (hb : borrowBook s u bid now = (s1, .created loan)) :
    (returnBook s1 u bid).2 = ReturnOutcome.ok ∧
    copiesOf (returnBook s1 u bid).1 bid = copiesOf s bid := by
  cases hfind : findBook s bid with
  | none => unfold borrowBook at hb; rw [hfind] at hb; simp at hb
  | some bk =>
    by_cases hc : bk.available_copies ≤ 0
    · rw [borrowBook_found u now hfind, if_pos hc] at hb; simp at hb
    · rw [borrowBook_success hfind hc] at hb
      injection hb with hs1 hl
      subst hs1
      have hact1 : activeLoansFor
          { books := updateBook s.books
              { bk with available_copies := bk.available_copies - 1 },
            loans := s.loans ++
              [{ id := s.nextLoanId, userId := u, bookId := bid, borrowed_at := now,
                 due_date := get_due_date now, returned := false }],
            nextLoanId := s.nextLoanId + 1 } u bid =
          [{ id := s.nextLoanId, userId := u, bookId := bid, borrowed_at := now,
             due_date := get_due_date now, returned := false }] := by
        unfold activeLoansFor at hnoprev ⊢
        simp only [List.filter_append]
        rw [hnoprev]
        simp
      rw [returnBook_single hact1]
      have h1 : (updateBook s.books
            { bk with available_copies := bk.available_copies - 1 }).find?
            (fun b => b.id == bid) =
          some { bk with available_copies := bk.available_copies - 1 } :=
        find_updateBook hfind rfl
      rw [show findBook
          { books := updateBook s.books
              { bk with available_copies := bk.available_copies - 1 },
            loans := s.loans ++
              [{ id := s.nextLoanId, userId := u, bookId := bid, borrowed_at := now,
                 due_date := get_due_date now, returned := false }],
            nextLoanId := s.nextLoanId + 1 } bid =
          some { bk with available_copies := bk.available_copies - 1 } from h1]
      refine ⟨rfl, ?_⟩
      have h2 : (updateBook (updateBook s.books
            { bk with available_copies := bk.available_copies - 1 })
            { bk with available_copies := bk.available_copies - 1 + 1 }).find?
            (fun b => b.id == bid) =
          some { bk with available_copies := bk.available_copies - 1 + 1 } :=
        find_updateBook h1 rfl
      show ((updateBook (updateBook s.books
          { bk with available_copies := bk.available_copies - 1 })
          { bk with available_copies := bk.available_copies - 1 + 1 }).find?
          (fun b => b.id == bid)).map Book.available_copies = copiesOf s bid
      rw [h2]
      unfold copiesOf
      rw [hfind]
      show some (bk.available_copies - 1 + 1) = some bk.available_copies
      congr 1
      omega

/-- Witness for amended C6: borrow the single copy of `bookA`, return it. -/
theorem borrow_return_round_trip_witness :
    (returnBook (borrowBook testState 7 1 1000).1 7 1).2 = ReturnOutcome.ok ∧
    copiesOf (returnBook (borrowBook testState 7 1 1000).1 7 1).1 1 =
      copiesOf testState 1 :=
  borrow_return_round_trip testState (borrowBook testState 7 1 1000).1 7 1 1000
    testLoan (by decide) (by decide)

/-- Every single loan-service operation preserves non-negativity of every
book's available copies. -/
theorem applyOp_nonneg (s : LibState) (op : Op)
    (h : ∀ b ∈ s.books, 0 ≤ b.available_copies) :
    ∀ b ∈ (applyOp s op).books, 0 ≤ b.available_copies := by
  cases op with
  | borrow u bid now =>
    show ∀ b ∈ (borrowBook s u bid now).1.books, 0 ≤ b.available_copies
    cases hfind : findBook s bid with
    | none =>
      unfold borrowBook
      rw [hfind]
      exact h
    | some bk =>
      by_cases hc : bk.available_copies ≤ 0
      · rw [borrowBook_found u now hfind, if_pos hc]
        exact h
      · rw [borrowBook_success hfind hc]
        intro b hb
        rcases mem_updateBook hb with rfl | ⟨hbm, -⟩
        · show (0 : Int) ≤ bk.available_copies - 1
          have := h bk (findBook_spec hfind).1
          omega
        · exact h b hbm
  | ret u bid =>
    show ∀ b ∈ (returnBook s u bid).1.books, 0 ≤ b.available_copies
    cases hact : activeLoansFor s u bid with
    | nil =>
      unfold returnBook
      rw [hact]
      exact h
    | cons l0 rest =>
      cases rest with
      | cons l2 r2 =>
        unfold returnBook
        rw [hact]
        exact h
      | nil =>
        rw [returnBook_single hact]
        cases hfind : findBook s bid with
        | none => exact h
        | some bk =>
          intro b hb
          rcases mem_updateBook hb with rfl | ⟨hbm, -⟩
          · show (0 : Int) ≤ bk.available_copies + 1
            have := h bk (findBook_spec hfind).1
            omega
          · exact h b hbm
  | scan now => exact h

/-- Non-negativity propagates along any operation sequence. -/
theorem applyOps_nonneg (ops : List Op) :
    ∀ s0 : LibState, (∀ b ∈ s0.books, 0 ≤ b.available_copies) →
      ∀ b ∈ (applyOps s0 ops).books, 0 ≤ b.available_copies := by
  induction ops with
  | nil => intro s0 h; exact h
  | cons op rest ih =>
    intro s0 h
    exact ih (applyOp s0 op) (applyOp_nonneg s0 op h)

/-- C7: in every state reachable from a state with non-negative copy counts
by Borrow, Return and ScanOverdue operations, every book's
`available_copies` stays non-negative: Borrow refuses to decrement at 0 or
below, Return only increments, ScanOverdue writes nothing. -/
theorem available_copies_nonneg (s0 s : LibState)
    (hinit : ∀ b ∈ s0.books, 0 ≤ b.available_copies)
    (hreach : Reachable s0 s) :
    ∀ b ∈ s.books, 0 ≤ b.available_copies := by
  obtain ⟨ops, rfl⟩ := hreach
  exact applyOps_nonneg ops s0 hinit

/-- Witness for C7 along a concrete borrow/return/scan run, whose final
state holds exactly the row `bookA` again. -/
theorem available_copies_nonneg_witness : 0 ≤ bookA.available_copies :=
  available_copies_nonneg testState _ (by decide)
    ⟨[Op.borrow 7 1 0, Op.ret 7 1, Op.scan 99], rfl⟩ bookA (by decide)

/-- C8: the Book create/update/delete handlers answer 403 'Permission
Denied' and write nothing when the requesting user's role is neither admin
nor librarian; for admin or librarian roles the mutation goes through. -/
theorem book_mutation_requires_staff (role : String) (s : LibState) (b : Book)
    (bid : Nat) :
    (role ≠ "admin" → role ≠ "librarian" →
      perform_create role s b = (s, .err .permissionDenied) ∧
      perform_update role s b = (s, .err .permissionDenied) ∧
      perform_destroy role s bid = (s, .err .permissionDenied)) ∧
    (role = "admin" ∨ role = "librarian" →
      (perform_create role s b).2 = CatalogOutcome.ok ∧
      (perform_update role s b).2 = CatalogOutcome.ok ∧
      (perform_destroy role s bid).2 = CatalogOutcome.ok) := by
  constructor
  · intro h1 h2
    have hs : isStaff role = false := by
      unfold isStaff
      rw [Bool.or_eq_false_iff]
      constructor <;> rw [beq_eq_false_iff_ne] <;> assumption
    unfold perform_create perform_update perform_destroy
    rw [hs]
    exact ⟨rfl, rfl, rfl⟩
  · intro h
    have hs : isStaff role = true := by
      rcases h with rfl | rfl <;> decide
    unfold perform_create perform_update perform_destroy
    rw [hs]
    exact ⟨rfl, rfl, rfl⟩

/-- Witness for C8: a member is refused, an admin goes through. -/
theorem book_mutation_requires_staff_witness :
    perform_create "member" testState bookB = (testState, .err .permissionDenied) ∧
    (perform_create "admin" testState bookB).2 = CatalogOutcome.ok :=
  ⟨((book_mutation_requires_staff "member" testState bookB 2).1
      (by decide) (by decide)).1,
   ((book_mutation_requires_staff "admin" testState bookB 2).2 (Or.inl rfl)).1⟩

/-- C9: the returned flag is monotone. Every loan a Borrow creates starts
with `returned = false`, and once a loan row has `returned = true` no
operation touches it again: it survives every operation unchanged, and it
stays the unique row with its primary key. -/
theorem returned_flag_terminal (s : LibState) (op : Op) (hwf : WF s) :
    (∀ u bid now s2 loan, borrowBook s u bid now = (s2, .created loan) →
      loan.returned = false) ∧
    ∀ l ∈ s.loans, l.returned = true →
      l ∈ (applyOp s op).loans ∧
      ∀ x ∈ (applyOp s op).loans, x.id = l.id → x = l := by
  obtain ⟨hnd, hfresh⟩ := hwf
  constructor
  · intro u bid now s2 loan hb
    cases hfind : findBook s bid with
    | none => unfold borrowBook at hb; rw [hfind] at hb; simp at hb
    | some bk =>
      by_cases hc : bk.available_copies ≤ 0
      · rw [borrowBook_found u now hfind, if_pos hc] at hb; simp at hb
      · rw [borrowBook_success hfind hc] at hb
        injection hb with h1 hl
        injection hl with hl2
        rw [← hl2]
  · intro l hl hret
    cases op with
    | borrow u bid now =>
      show l ∈ (borrowBook s u bid now).1.loans ∧
        ∀ x ∈ (borrowBook s u bid now).1.loans, x.id = l.id → x = l
      cases hfind : findBook s bid with
      | none =>
        unfold borrowBook
        rw [hfind]
        exact ⟨hl, fun x hx hid => nodup_id_eq hnd hx hl hid⟩
      | some bk =>
        by_cases hc : bk.available_copies ≤ 0
        · rw [borrowBook_found u now hfind, if_pos hc]
          exact ⟨hl, fun x hx hid => nodup_id_eq hnd hx hl hid⟩
        · rw [borrowBook_success hfind hc]
          refine ⟨List.mem_append_left _ hl, ?_⟩
          intro x hx hid
          rcases List.mem_append.mp hx with hx1 | hx2
          · exact nodup_id_eq hnd hx1 hl hid
          · exfalso
            have hxeq := List.mem_singleton.mp hx2
            have hfr := hfresh l hl
            rw [hxeq] at hid
            have h2 : s.nextLoanId = l.id := hid
            omega
    | ret u bid =>
      show l ∈ (returnBook s u bid).1.loans ∧
        ∀ x ∈ (returnBook s u bid).1.loans, x.id = l.id → x = l
      cases hact : activeLoansFor s u bid with
      | nil =>
        unfold returnBook
        rw [hact]
        exact ⟨hl, fun x hx hid => nodup_id_eq hnd hx hl hid⟩
      | cons l0 rest =>
        cases rest with
        | cons l2 r2 =>
          unfold returnBook
          rw [hact]
          exact ⟨hl, fun x hx hid => nodup_id_eq hnd hx hl hid⟩
        | nil =>
          rw [returnBook_single hact]
          obtain ⟨hl0m, hl0b, hl0u, hl0r⟩ := activeLoansFor_single_spec hact
          have hne : l.id ≠ l0.id := by
            intro he
            have heq := nodup_id_eq hnd hl hl0m he
            rw [heq, hl0r] at hret
            exact Bool.false_ne_true hret
          have key1 : l ∈ markReturned s.loans l0 := by
            unfold markReturned
            exact List.mem_map.mpr ⟨l, hl, by rw [if_neg (by simpa using hne)]⟩
          have key2 : ∀ x ∈ markReturned s.loans l0, x.id = l.id → x = l := by
            intro x hx hid
            unfold markReturned at hx
            obtain ⟨a, ha, hae⟩ := List.mem_map.mp hx
            by_cases hc : a.id = l0.id
            · rw [if_pos (by simpa using hc)] at hae
              exfalso
              apply hne
              rw [← hid, ← hae]
            · rw [if_neg (by simpa using hc)] at hae
              rw [← hae] at hid ⊢
              exact nodup_id_eq hnd ha hl hid
          cases hfind : findBook s bid with
          | none => exact ⟨key1, key2⟩
          | some bk => exact ⟨key1, key2⟩
    | scan now =>
      exact ⟨hl, fun x hx hid => nodup_id_eq hnd hx hl hid⟩

/-- Witness for C9: the already-returned `retLoan` survives a Return
operation untouched. -/
theorem returned_flag_terminal_witness :
    retLoan ∈ (applyOp testStateR (Op.ret 7 1)).loans :=
  ((returned_flag_terminal testStateR (Op.ret 7 1)
      ⟨by decide, by decide⟩).2 retLoan (by decide) rfl).1

/-- C10: no per-pair uniqueness. When a user already holds an active loan
on a book and copies remain, a further Borrow by the same user on the same
book succeeds and creates a second, distinct active loan for the same
(user, book) pair. -/
theorem borrow_allows_duplicate_active_loan (s : LibState) (u bid now : Nat)
    (l : Loan) (bk : Book) (hwf : WF s)
    (hl : l ∈ s.loans) (hlu : l.userId = u) (hlb : l.bookId = bid)
    (hlr : l.returned = false)
    (hbk : findBook s bid = some bk) (hpos : 0 < bk.available_copies) :
    ∃ s2 loan2, borrowBook s u bid now = (s2, .created loan2) ∧
      loan2.userId = u ∧ loan2.bookId = bid ∧ loan2.returned = false ∧
      l ∈ s2.loans ∧ loan2 ∈ s2.loans ∧ loan2 ≠ l := by
  have hc : ¬bk.available_copies ≤ 0 := not_le.mpr hpos
  refine ⟨_, _, borrowBook_success hbk hc, rfl, rfl, rfl, ?_, ?_, ?_⟩
  · exact List.mem_append_left _ hl
  · exact List.mem_append_right _ (List.mem_singleton.mpr rfl)
  · intro he
    have h2 : s.nextLoanId = l.id := congrArg Loan.id he
    have h3 := hwf.2 l hl
    omega

/-- Witness for C10: user 7 borrows book 1 again while `dupLoan` is still
active. -/
theorem borrow_allows_duplicate_active_loan_witness :
    ∃ s2 loan2, borrowBook dupState 7 1 50 = (s2, .created loan2) ∧
      loan2.userId = 7 ∧ loan2.bookId = 1 ∧ loan2.returned = false ∧
      dupLoan ∈ s2.loans ∧ loan2 ∈ s2.loans ∧ loan2 ≠ dupLoan :=
  borrow_allows_duplicate_active_loan dupState 7 1 50 dupLoan bookA2
    ⟨by decide, by decide⟩ (by decide) rfl rfl rfl (by decide) (by decide)

end LibraryProject
